import Mathlib

/-!
Verification development for the `mixture` repository
(`src/helper/defillama.py` and `src/helper/access_dune.py`).

The Python helpers are shallowly embedded: data frames are lists of rows
(or, for the protocols table, association lists of named columns), JSON
responses are explicit structures, network fetches are modelled by passing
the decoded response as an argument, and operations that can raise in
Python return `Except String`.  Numeric payload cells (USD amounts,
prices) are carried as `Int`; the transforms under study never compute
with them, they only move them around.

Python `str` values are modelled by Lean `String`, with the handful of
`str` methods the code uses re-implemented structurally over the
underlying character list so that every definition evaluates inside the
kernel (`decide` / `rfl`).
-/

namespace Mixture

/-! ### Python string primitives used by the helpers -/

-- Python `s.split(sep)` for a one-character separator: splits at EVERY
-- occurrence of the separator (no maxsplit).
def pySplit (sep : Char) (s : String) : List String :=
  ((s.data).splitOn sep).map (fun cs => ⟨cs⟩)

def charsToNat? (cs : List Char) : Option Nat :=
  if cs ≠ [] ∧ cs.all Char.isDigit then
    some (cs.foldl (fun acc c => 10 * acc + (c.toNat - 48)) 0)
  else none

-- decimal parse of a digit string, e.g. "07" ↦ 7
def pyToNat? (s : String) : Option Nat := charsToNat? s.data

-- `df[date_col].str.replace('T.*', '', regex=True)`: the regex erases from
-- the first 'T' to the end of the string.
def pyTakeUntilT (s : String) : String := ⟨s.data.takeWhile (fun c => c ≠ 'T')⟩

-- Python `s.startswith(pre)`
def pyStartsWith (s pre : String) : Bool := pre.data.isPrefixOf s.data

-- Python `s.replace(pat, repl)` (non-regex: replaces every occurrence,
-- scanning left to right).  `fuel` is the length of the scanned list, so
-- the recursion is structural.
def replaceFuel (pat repl : List Char) : Nat → List Char → List Char
  | 0, s => s
  | _ + 1, [] => []
  | fuel + 1, c :: rest =>
    if pat.isPrefixOf (c :: rest) then
      repl ++ replaceFuel pat repl fuel ((c :: rest).drop pat.length)
    else c :: replaceFuel pat repl fuel rest

def pyReplace (s pat repl : String) : String :=
  ⟨replaceFuel pat.data repl.data s.data.length s.data⟩

/-! ### `datetime.utcfromtimestamp`: epoch seconds → UTC calendar time

Model of the proleptic-Gregorian conversion performed by
`dt.datetime.utcfromtimestamp(int(x))` for non-negative epoch values,
written with fuel so it evaluates in the kernel. -/

def isLeap (y : Nat) : Bool := (y % 4 == 0 && y % 100 != 0) || (y % 400 == 0)

def daysInYear (y : Nat) : Nat := if isLeap y then 366 else 365

def monthLengths (y : Nat) : List Nat :=
  [31, if isLeap y then 29 else 28, 31, 30, 31, 30, 31, 31, 30, 31, 30, 31]

-- peel whole years off a day count, starting at year `y`
def findYear : Nat → Nat → Nat → Nat × Nat
  | 0, y, d => (y, d)
  | fuel + 1, y, d =>
    if daysInYear y ≤ d then findYear fuel (y + 1) (d - daysInYear y) else (y, d)

-- peel whole months off a day-of-year count
def findMonth : List Nat → Nat → Nat → Nat × Nat
  | [], m, d => (m, d)
  | len :: rest, m, d =>
    if len ≤ d then findMonth rest (m + 1) (d - len) else (m, d)

structure DateTime where
  year : Nat
  month : Nat
  day : Nat
  hour : Nat
  minute : Nat
  second : Nat
deriving DecidableEq

def utcfromtimestamp (ts : Nat) : DateTime :=
  let days := ts / 86400
  let sod := ts % 86400
  let yd := findYear days 1970 days
  let md := findMonth (monthLengths yd.1) 1 yd.2
  ⟨yd.1, md.1, md.2 + 1, sod / 3600, sod % 3600 / 60, sod % 60⟩

-- total days in the `k` consecutive years starting at year `y`
def sumYearsFrom : Nat → Nat → Nat
  | _, 0 => 0
  | y, k + 1 => daysInYear y + sumYearsFrom (y + 1) k

-- days since 1970-01-01 of a civil date (the inverse direction, used to
-- state chronological order of `DateTime` values)
def daysFromCivil (y m d : Nat) : Nat :=
  sumYearsFrom 1970 (y - 1970) + ((monthLengths y).take (m - 1)).sum + (d - 1)

-- seconds since the epoch of a `DateTime`; comparing these numbers is
-- chronological comparison of UTC timestamps
def toEpochSecs (t : DateTime) : Nat :=
  86400 * daysFromCivil t.year t.month t.day + 3600 * t.hour + 60 * t.minute + t.second

/-! ### Effectful list map (Python comprehension over fallible steps) -/

instance [DecidableEq ε] [DecidableEq α] : DecidableEq (Except ε α) := fun a b =>
  match a, b with
  | Except.ok x, Except.ok y =>
    if h : x = y then isTrue (by rw [h]) else isFalse (by intro hc; cases hc; exact h rfl)
  | Except.error x, Except.error y =>
    if h : x = y then isTrue (by rw [h]) else isFalse (by intro hc; cases hc; exact h rfl)
  | Except.ok _, Except.error _ => isFalse (by intro hc; cases hc)
  | Except.error _, Except.ok _ => isFalse (by intro hc; cases hc)

def mapE (f : α → Except String β) : List α → Except String (List β)
  | [] => Except.ok []
  | a :: l =>
    match f a with
    | Except.ok b =>
      match mapE f l with
      | Except.ok bs => Except.ok (b :: bs)
      | Except.error e => Except.error e
    | Except.error e => Except.error e

/-! ### `src/helper/defillama.py` -/

def TVL_BASE_URL : String := "https://api.llama.fi"

def COINS_BASE_URL : String := "https://coins.llama.fi"

def STABLECOINS_BASE_URL : String := "https://stablecoins.llama.fi"

def YIELDS_BASE_URL : String := "https://yields.llama.fi"

def ABI_DECODER_BASE_URL : String := "https://abi-decoder.llama.fi"

-- the request-URL selector inside `DefiLlama._get` (lines 53-62): an
-- if/elif chain whose final `else` branch is the ABI-decoder base URL
def _get_request_url (api_name endpoint : String) : String :=
  if api_name = "TVL" then TVL_BASE_URL ++ endpoint
  else if api_name = "COINS" then COINS_BASE_URL ++ endpoint
  else if api_name = "STABLECOINS" then STABLECOINS_BASE_URL ++ endpoint
  else if api_name = "YIELDS" then YIELDS_BASE_URL ++ endpoint
  else ABI_DECODER_BASE_URL ++ endpoint

-- one record of a historical TVL series response: {date, totalLiquidityUSD}
structure TvlRecord where
  date : Nat
  totalLiquidityUSD : Int
deriving DecidableEq

-- one row of the reshaped TVL frame: the converted date is the index and
-- the value column has been renamed to `tvl`
structure TvlRow where
  date : DateTime
  tvl : Int
deriving DecidableEq

-- `DefiLlama._tidy_frame_tvl` (lines 21-34): converts each epoch `date`
-- with `utcfromtimestamp`, sets it as the index and renames
-- `totalLiquidityUSD` to `tvl`.  No row is added or removed.
def _tidy_frame_tvl (df : List TvlRecord) : List TvlRow :=
  df.map (fun r => ⟨utcfromtimestamp r.date, r.totalLiquidityUSD⟩)

-- decoded `/protocol/{name}` response, restricted to the fields the
-- helpers read: `currentChainTvls` (chain name ↦ current TVL) and
-- `chainTvls[chain]['tvl']` (chain name ↦ historical series)
structure ProtocolResp where
  currentChainTvls : List (String × Int)
  chainTvls : List (String × List TvlRecord)
deriving DecidableEq

-- `DefiLlama.get_protocol_curr_tvl_by_chain` (lines 160-177): pops the
-- 'staking' key if present, then materializes one row per remaining key
-- (`pd.Series(dd)` → `.to_frame()` keeps keys as the index and `tvl` as
-- the single column).
def get_protocol_curr_tvl_by_chain (resp : ProtocolResp) : List (String × Int) :=
  if resp.currentChainTvls.any (fun kv => kv.1 == "staking") then
    resp.currentChainTvls.eraseP (fun kv => kv.1 == "staking")
  else resp.currentChainTvls

-- the methods defined on class `DefiLlama` that tidy a TVL frame; Python
-- resolves `self.<name>` by name at call time, so the dispatch in
-- `get_protocol_hist_tvl_by_chain` is modelled as a lookup in this table.
-- The class defines `_tidy_frame_tvl` (line 21) and `_tidy_frame_price`
-- (line 198) but no method named `_tidy_frame`.
def tvlFrameMethods : List (String × (List TvlRecord → List TvlRow)) :=
  [("_tidy_frame_tvl", _tidy_frame_tvl)]

-- `DefiLlama.get_protocol_hist_tvl_by_chain` (lines 179-196): pops
-- 'staking', then builds `{chain: self._tidy_frame(...) for chain in chains}`.
-- Python evaluates the attribute `self._tidy_frame` before the call
-- arguments, so each iteration first resolves that (undefined) name.
def get_protocol_hist_tvl_by_chain (resp : ProtocolResp) :
    Except String (List (String × List TvlRow)) :=
  let d1 := if resp.currentChainTvls.any (fun kv => kv.1 == "staking") then
    resp.currentChainTvls.eraseP (fun kv => kv.1 == "staking")
  else resp.currentChainTvls
  let chains := d1.map Prod.fst
  mapE (fun chain =>
    match tvlFrameMethods.lookup "_tidy_frame" with
    | some f =>
      match resp.chainTvls.lookup chain with
      | some recs => Except.ok (chain, f recs)
      | none => Except.error "KeyError"
    | none => Except.error "AttributeError: _tidy_frame") chains

-- the value object attached to each `chain:address` key of a price response
structure CoinInfo where
  decimals : Nat
  symbol : String
  price : Int
  timestamp : Nat
  confidence : Int
deriving DecidableEq

-- decoded `/prices/...` response: `resp['coins']` is a mapping from
-- compound 'chain:address' keys to value objects
structure PriceResp where
  coins : List (String × CoinInfo)
deriving DecidableEq

-- one row of the tidied price frame.  `chain`/`token_address` are the
-- first two pieces of the split key; `pd.DataFrame` pads short rows with
-- None, hence `Option String`.
structure PriceRow where
  chain : Option String
  token_address : Option String
  decimals : Nat
  symbol : String
  price : Int
  timestamp : DateTime
  confidence : Int
deriving DecidableEq

-- `DefiLlama._tidy_frame_price` (lines 198-206):
--   `ha = pd.DataFrame([item.split(':') for item in resp['coins'].keys()])`
--   `ha.columns = ['chain', 'token_address']`
-- The split is on EVERY colon; `pd.DataFrame` of the split lists has as
-- many columns as the longest split, and the two-name column assignment
-- raises ValueError unless that width is exactly 2 (an empty key list
-- gives width 0 and also raises).  Then the key columns are joined with
-- the value objects and the epoch `timestamp` field is decoded.
def _tidy_frame_price (resp : PriceResp) : Except String (List PriceRow) :=
  if (resp.coins.map (fun kv => (pySplit ':' kv.1).length)).foldr max 0 = 2 then
    Except.ok (resp.coins.map (fun kv =>
      let parts := pySplit ':' kv.1
      ⟨parts[0]?, parts[1]?, kv.2.decimals, kv.2.symbol, kv.2.price,
        utcfromtimestamp kv.2.timestamp, kv.2.confidence⟩))
  else Except.error "ValueError: Length mismatch"

-- `','.join([v + ':' + k for k, v in token_addrs_n_chains.items()])`
-- prefixed by the endpoint (line 224-225); modelled for fidelity, the
-- response itself is passed in explicitly.
def curr_prices_request_path (token_addrs_n_chains : List (String × String)) : String :=
  "/prices/current/" ++
    String.intercalate "," (token_addrs_n_chains.map (fun kv => kv.2 ++ ":" ++ kv.1))

-- final column selection of `get_tokens_curr_prices` (lines 227-228), in
-- the requested order
structure CurrPriceRow where
  timestamp : DateTime
  symbol : String
  price : Int
  confidence : Int
  chain : Option String
  token_address : Option String
  decimals : Nat
deriving DecidableEq

-- `DefiLlama.get_tokens_curr_prices` (lines 208-228).  `resp` is the
-- decoded JSON the COINS API returns for the assembled request; an empty
-- input mapping requests no coins, so its response carries an empty
-- `coins` mapping.
def get_tokens_curr_prices (token_addrs_n_chains : List (String × String))
    (resp : PriceResp) : Except String (List CurrPriceRow) := do
  let df ← _tidy_frame_price resp
  Except.ok (df.map (fun r =>
    ⟨r.timestamp, r.symbol, r.price, r.confidence, r.chain, r.token_address, r.decimals⟩))

-- `df.loc[:, cols]`: select the named columns, in order; a missing column
-- raises KeyError
def locCols (df : List (String × List α)) (cols : List String) :
    Except String (List (String × List α)) :=
  mapE (fun c =>
    match df.lookup c with
    | some v => Except.ok (c, v)
    | none => Except.error "KeyError") cols

-- `df.rename(columns={old: new})`
def renameCol (df : List (String × List α)) (old new : String) :
    List (String × List α) :=
  df.map (fun kv => (if kv.1 = old then new else kv.1, kv.2))

-- the columns requested by `get_protocols_fundamentals` (lines 140-142)
def fundamentalsCols : List String :=
  ["name", "symbol", "chain", "category", "chains",
   "tvl", "change_1d", "change_7d", "fdv", "mcap", "forkedFrom"]

-- `DefiLlama.get_protocols_fundamentals` (lines 127-144), acting on the
-- `/protocols` response viewed as named columns (cells of type `α`):
-- select the requested columns then rename `forkedFrom` to `forked_from`.
def get_protocols_fundamentals (df : List (String × List α)) :
    Except String (List (String × List α)) := do
  let sel ← locCols df fundamentalsCols
  Except.ok (renameCol sel "forkedFrom" "forked_from")

/-! ### `src/helper/access_dune.py` -/

-- `dune_data['data']['get_result_by_result_id']`: a list of result
-- records, each a flat mapping from (json-normalized) column name to a
-- cell, e.g. key "data.day" ↦ "2021-07-01T00:00:00+00:00"
structure DuneData where
  records : List (List (String × String))
deriving DecidableEq

abbrev DuneRow := Nat × List (String × String)

-- `pd.to_datetime` applied to a 'YYYY-MM-DD' string (after the regex has
-- stripped 'T.*'): parsed to days since the epoch; an unparsable string
-- raises.
def to_datetime (s : String) : Option Nat :=
  match pySplit '-' s with
  | [ys, ms, ds] =>
    match pyToNat? ys, pyToNat? ms, pyToNat? ds with
    | some y, some m, some d => some (daysFromCivil y m d)
    | _, _, _ => none
  | _ => none

-- per-record part of `extract_frame_from_dune_data` (lines 5-12 of
-- access_dune.py): keep the columns whose name starts with 'data', strip
-- the 'data.' prefix, parse the date column (with 'T.*' removed), and
-- drop the date column from the remaining cells when it is not already
-- named 'date'.
def normalize_dune_record (date_col : String) (rec0 : List (String × String)) :
    Except String DuneRow := do
  let dataCols := (rec0.filter (fun kv => pyStartsWith kv.1 "data")).map
    (fun kv => (pyReplace kv.1 "data." "", kv.2))
  let dayVal ← match dataCols.lookup date_col with
    | some v => Except.ok v
    | none => Except.error "KeyError"
  let d ← match to_datetime (pyTakeUntilT dayVal) with
    | some d => Except.ok d
    | none => Except.error "ParserError"
  let rest := if date_col ≠ "date" then dataCols.filter (fun kv => !(kv.1 == date_col))
    else dataCols
  Except.ok (d, rest)

def dune_rows (dune : DuneData) (date_col : String) : Except String (List DuneRow) :=
  mapE (normalize_dune_record date_col) dune.records

-- `extract_frame_from_dune_data` (access_dune.py lines 5-15): normalize
-- every record, set the parsed date as the index, sort by the index
-- (`sort_index`; modelled by insertion sort — the claims under study do
-- not depend on how ties are ordered), and drop the last row.
def extract_frame_from_dune_data (dune : DuneData) (date_col : String) :
    Except String (List DuneRow) := do
  let rows ← dune_rows dune date_col
  let sorted := List.insertionSort (fun a b => a.1 ≤ b.1) rows
  Except.ok sorted.dropLast

instance : IsTotal DuneRow (fun a b => a.1 ≤ b.1) := ⟨fun a b => Nat.le_total a.1 b.1⟩

instance : IsTrans DuneRow (fun a b => a.1 ≤ b.1) := ⟨fun _ _ _ => Nat.le_trans⟩

/-! ### Shared lemmas: the calendar conversion inverts epoch arithmetic -/

theorem daysInYear_pos (y : Nat) : 0 < daysInYear y := by
  unfold daysInYear; split <;> omega

theorem daysInYear_ge (y : Nat) : 365 ≤ daysInYear y := by
  unfold daysInYear; split <;> omega

theorem findYear_spec : ∀ (fuel d y : Nat), d ≤ fuel →
    ∃ k, findYear fuel y d = (y + k, d - sumYearsFrom y k) ∧
      sumYearsFrom y k ≤ d ∧ d - sumYearsFrom y k < daysInYear (y + k) := by
  intro fuel
  induction fuel with
  | zero =>
    intro d y hd
    refine ⟨0, ?_, ?_, ?_⟩
    · simp [findYear, sumYearsFrom]
    · simp [sumYearsFrom]
    · have := daysInYear_pos y
      simp [sumYearsFrom]; omega
  | succ n ih =>
    intro d y hd
    by_cases h : daysInYear y ≤ d
    · have hle : d - daysInYear y ≤ n := by
        have := daysInYear_ge y; omega
      obtain ⟨k, hk, hk1, hk2⟩ := ih (d - daysInYear y) (y + 1) hle
      refine ⟨k + 1, ?_, ?_, ?_⟩
      · show findYear (n + 1) y d = _
        rw [findYear, if_pos h, hk]
        rw [Prod.mk.injEq]
        refine ⟨by omega, ?_⟩
        rw [show sumYearsFrom y (k + 1) = daysInYear y + sumYearsFrom (y + 1) k from rfl]
        omega
      · rw [show sumYearsFrom y (k + 1) = daysInYear y + sumYearsFrom (y + 1) k from rfl]
        omega
      · rw [show sumYearsFrom y (k + 1) = daysInYear y + sumYearsFrom (y + 1) k from rfl]
        have hy : y + (k + 1) = y + 1 + k := by omega
        rw [hy]
        omega
    · refine ⟨0, ?_, ?_, ?_⟩
      · show findYear (n + 1) y d = _
        rw [findYear, if_neg h]
        simp [sumYearsFrom]
      · simp [sumYearsFrom]
      · simp [sumYearsFrom]; omega

theorem findMonth_spec : ∀ (ls : List Nat) (d m : Nat), d < ls.sum →
    ∃ i, findMonth ls m d = (m + i, d - (ls.take i).sum) ∧
      (ls.take i).sum ≤ d := by
  intro ls
  induction ls with
  | nil => intro d m hd; simp at hd
  | cons len rest ih =>
    intro d m hd
    by_cases h : len ≤ d
    · have hlt : d - len < rest.sum := by
        simp [List.sum_cons] at hd; omega
      obtain ⟨i, hi, hi1⟩ := ih (d - len) (m + 1) hlt
      refine ⟨i + 1, ?_, ?_⟩
      · rw [findMonth, if_pos h, hi]
        rw [Prod.mk.injEq]
        refine ⟨by omega, ?_⟩
        simp only [List.take_succ_cons, List.sum_cons]
        omega
      · simp only [List.take_succ_cons, List.sum_cons]
        omega
    · refine ⟨0, ?_, ?_⟩
      · rw [findMonth, if_neg h]; simp
      · simp

theorem monthLengths_sum (y : Nat) : (monthLengths y).sum = daysInYear y := by
  unfold monthLengths daysInYear
  by_cases h : isLeap y <;> simp [h]

/-- The embedded `utcfromtimestamp` decodes exactly the epoch-seconds count:
mapping the resulting UTC calendar time back to seconds since
1970-01-01T00:00:00 UTC recovers the input. -/
theorem toEpochSecs_utcfromtimestamp (ts : Nat) : toEpochSecs (utcfromtimestamp ts) = ts := by
  obtain ⟨k, hk, hk1, hk2⟩ := findYear_spec (ts / 86400) (ts / 86400) 1970 (Nat.le_refl _)
  have hlt : ts / 86400 - sumYearsFrom 1970 k < (monthLengths (1970 + k)).sum := by
    rw [monthLengths_sum]; exact hk2
  obtain ⟨i, hi, hi1⟩ :=
    findMonth_spec (monthLengths (1970 + k)) (ts / 86400 - sumYearsFrom 1970 k) 1 hlt
  have hu : utcfromtimestamp ts =
      ⟨(findYear (ts / 86400) 1970 (ts / 86400)).1,
       (findMonth (monthLengths (findYear (ts / 86400) 1970 (ts / 86400)).1) 1
         (findYear (ts / 86400) 1970 (ts / 86400)).2).1,
       (findMonth (monthLengths (findYear (ts / 86400) 1970 (ts / 86400)).1) 1
         (findYear (ts / 86400) 1970 (ts / 86400)).2).2 + 1,
       ts % 86400 / 3600, ts % 86400 % 3600 / 60, ts % 86400 % 60⟩ := rfl
  rw [hu, hk]
  simp only [hi]
  unfold toEpochSecs daysFromCivil
  simp only
  rw [show 1970 + k - 1970 = k from by omega]
  rw [show 1 + i - 1 = i from by omega]
  rw [show (ts / 86400 - sumYearsFrom 1970 k - ((monthLengths (1970 + k)).take i).sum + 1 - 1) =
    ts / 86400 - sumYearsFrom 1970 k - ((monthLengths (1970 + k)).take i).sum from by omega]
  omega

/-! ### Shared lemmas: `mapE`, `eraseP`, `foldr max` -/

theorem mapE_error_head {α β : Type} {f : α → Except String β} {a : α} {l : List α} {e : String}
    (h : f a = Except.error e) : mapE f (a :: l) = Except.error e := by
  simp [mapE, h]

theorem mapE_length {α β : Type} {f : α → Except String β} {l : List α} {res : List β}
    (h : mapE f l = Except.ok res) : res.length = l.length := by
  induction l generalizing res with
  | nil =>
    simp [mapE] at h
    simp [h]
  | cons a t ih =>
    cases hfa : f a with
    | error e => simp [mapE, hfa] at h
    | ok b =>
      cases hmt : mapE f t with
      | error e => simp [mapE, hfa, hmt] at h
      | ok bs =>
        simp [mapE, hfa, hmt] at h
        rw [← h]
        simp [ih hmt]

theorem mem_eraseP_of_neg {α : Type} {p : α → Bool} {a : α} {l : List α}
    (h : a ∈ l) (hpa : p a = false) : a ∈ l.eraseP p := by
  induction l with
  | nil => cases h
  | cons b t ih =>
    rw [List.eraseP_cons]
    rcases List.mem_cons.mp h with h1 | h1
    · subst h1
      rw [hpa]
      simp
    · by_cases hpb : p b
      · simp [hpb]; exact h1
      · simp [hpb]
        exact Or.inr (ih h1)

theorem filter_ne_key_eq_self (l : List (String × Int)) (k : String)
    (h : k ∉ l.map Prod.fst) : l.filter (fun kv => !(kv.1 == k)) = l := by
  apply List.filter_eq_self.mpr
  intro kv hkv
  have hne : kv.1 ≠ k := fun hc => h (hc ▸ List.mem_map_of_mem Prod.fst hkv)
  simp [hne]

theorem eraseP_key_eq_filter (l : List (String × Int)) (k : String)
    (hnd : (l.map Prod.fst).Nodup) :
    l.eraseP (fun kv => kv.1 == k) = l.filter (fun kv => !(kv.1 == k)) := by
  induction l with
  | nil => rfl
  | cons a t ih =>
    rw [List.map_cons, List.nodup_cons] at hnd
    obtain ⟨ha, ht⟩ := hnd
    rw [List.eraseP_cons, List.filter_cons]
    by_cases hak : a.1 = k
    · have hb : (a.1 == k) = true := by simp [hak]
      simp only [hb, cond_true, Bool.not_true]
      rw [if_neg (by simp)]
      exact (filter_ne_key_eq_self t k (hak ▸ ha)).symm
    · have hb : (a.1 == k) = false := by simp [hak]
      simp only [hb, cond_false, Bool.not_false]
      rw [if_pos trivial]
      rw [ih ht]

theorem foldr_max_all_two (l : List Nat) (hne : l ≠ []) (h : ∀ x ∈ l, x = 2) :
    l.foldr max 0 = 2 := by
  induction l with
  | nil => cases hne rfl
  | cons a t ih =>
    rcases eq_or_ne t [] with h1 | h1
    · subst h1
      simp [h a (by simp)]
    · have ht := ih h1 (fun x hx => h x (List.mem_cons_of_mem _ hx))
      simp [List.foldr_cons, ht, h a (by simp)]

/-! ### Claim C1 -/

/-- C1 (counterexample): the claim says the TVL series reshape drops the last
row unconditionally, so a series of one record should reshape to 0 rows.  It
does not: `_tidy_frame_tvl` of a one-record series has 1 row, not 1 − 1 = 0. -/
theorem c1_counterexample :
    (_tidy_frame_tvl [⟨1625097600, 42⟩]).length = 1 ∧
    (_tidy_frame_tvl [⟨1625097600, 42⟩]).length ≠ 1 - 1 := by
  constructor
  · decide
  · decide

/-- C1 (amended): the TVL series reshape `_tidy_frame_tvl` returns exactly N
rows for an N-record series — it never drops the last (or any) row.  The
drop-the-last-row policy lives only in the Dune extraction
(`extract_frame_from_dune_data`, see C10). -/
theorem c1_theorem (df : List TvlRecord) : (_tidy_frame_tvl df).length = df.length := by
  unfold _tidy_frame_tvl
  exact List.length_map df _

/-! ### Claim C4 -/

/-- C4: for any `api_name` outside the five enumerated tags, the request-URL
selector in `_get` silently takes the final `else` branch, so it builds the
same URL as the tag 'ABI_DECODER' would with the same endpoint. -/
theorem c4_theorem (api_name endpoint : String)
    (h1 : api_name ≠ "TVL") (h2 : api_name ≠ "COINS")
    (h3 : api_name ≠ "STABLECOINS") (h4 : api_name ≠ "YIELDS")
    (h5 : api_name ≠ "ABI_DECODER") :
    _get_request_url api_name endpoint = _get_request_url "ABI_DECODER" endpoint := by
  unfold _get_request_url
  rw [if_neg h1, if_neg h2, if_neg h3, if_neg h4]
  rfl

/-- C4 (witness): the unrecognized tag "PEGGEDASSETS" yields the ABI-decoder
URL. -/
theorem c4_witness :
    ("PEGGEDASSETS" ≠ "TVL" ∧ "PEGGEDASSETS" ≠ "COINS" ∧ "PEGGEDASSETS" ≠ "STABLECOINS" ∧
      "PEGGEDASSETS" ≠ "YIELDS" ∧ "PEGGEDASSETS" ≠ "ABI_DECODER") ∧
    _get_request_url "PEGGEDASSETS" "/charts" = _get_request_url "ABI_DECODER" "/charts" :=
  ⟨⟨by decide, by decide, by decide, by decide, by decide⟩,
    c4_theorem "PEGGEDASSETS" "/charts" (by decide) (by decide) (by decide) (by decide) (by decide)⟩

/-! ### Claim C9 -/

/-- C9: the epoch-seconds decoding used by the normalizers maps 1625097600 to
the UTC timestamp 2021-07-01 00:00:00 (shown through `_tidy_frame_tvl`, which
applies `utcfromtimestamp` to the `date` field), and in general the decoded
calendar time denotes exactly the input count of seconds since
1970-01-01T00:00:00 UTC. -/
theorem c9_theorem :
    _tidy_frame_tvl [⟨1625097600, 0⟩] = [⟨⟨2021, 7, 1, 0, 0, 0⟩, 0⟩] ∧
    ∀ ts : Nat, toEpochSecs (utcfromtimestamp ts) = ts :=
  ⟨by decide, toEpochSecs_utcfromtimestamp⟩

/-! ### Claim C6 -/

/-- C6 (counterexample): the claim says the reshaped TVL output has a strictly
increasing timestamp index regardless of the order of the input records.  It
does not: `_tidy_frame_tvl` performs no sort, so an out-of-order response
(here 1970-01-02 before 1970-01-01) yields a non-increasing index. -/
theorem c6_counterexample :
    ¬ List.Chain' (fun a b : TvlRow => toEpochSecs a.date < toEpochSecs b.date)
      (_tidy_frame_tvl [⟨86400, 0⟩, ⟨0, 0⟩]) := by
  intro hc
  rw [show _tidy_frame_tvl [⟨86400, 0⟩, ⟨0, 0⟩] =
      [⟨⟨1970, 1, 2, 0, 0, 0⟩, 0⟩, ⟨⟨1970, 1, 1, 0, 0, 0⟩, 0⟩] from by decide,
    List.chain'_pair] at hc
  exact absurd hc (by decide)

/-- C6 (amended): `_tidy_frame_tvl` preserves the order of the input records,
so the reshaped output's UTC timestamp index is strictly increasing provided
the response's epoch dates arrive in strictly increasing order (which is how
the API orders historical series); it is not increasing "regardless of
order". -/
theorem c6_theorem (df : List TvlRecord)
    (h : List.Chain' (fun a b => a.date < b.date) df) :
    List.Chain' (fun a b => toEpochSecs a.date < toEpochSecs b.date) (_tidy_frame_tvl df) := by
  unfold _tidy_frame_tvl
  rw [List.chain'_map]
  refine h.imp ?_
  intro a b hab
  simpa [toEpochSecs_utcfromtimestamp] using hab

/-- C6 (witness): a two-record series with increasing epoch dates reshapes to
a strictly increasing timestamp index. -/
theorem c6_witness :
    List.Chain' (fun a b : TvlRecord => a.date < b.date) [⟨0, 1⟩, ⟨86400, 2⟩] ∧
    List.Chain' (fun a b : TvlRow => toEpochSecs a.date < toEpochSecs b.date)
      (_tidy_frame_tvl [⟨0, 1⟩, ⟨86400, 2⟩]) :=
  ⟨by rw [List.chain'_pair]; decide,
    c6_theorem [⟨0, 1⟩, ⟨86400, 2⟩] (by rw [List.chain'_pair]; decide)⟩

/-! ### Claim C2 -/

/-- C2 (counterexample): the claim says calling the current-price function
with an empty input mapping does not raise and returns an empty table.  It
does not hold: an empty mapping requests no coins, the response's `coins`
mapping is empty, `pd.DataFrame([])` has zero columns, and the assignment of
the two column names in `_tidy_frame_price` raises ValueError — there is no
`ok` result at all. -/
theorem c2_counterexample :
    ¬ ∃ rows, get_tokens_curr_prices [] ⟨[]⟩ = Except.ok rows := by
  rintro ⟨rows, hr⟩
  rw [show get_tokens_curr_prices [] ⟨[]⟩ = Except.error "ValueError: Length mismatch" from
    by decide] at hr
  exact Except.noConfusion hr

/-- C2 (amended): for an empty input mapping — indeed for any response whose
`coins` mapping is empty — `get_tokens_curr_prices` raises the pandas
ValueError from the two-name column assignment in `_tidy_frame_price`,
instead of returning an empty frame with the expected columns. -/
theorem c2_theorem (token_addrs_n_chains : List (String × String)) (resp : PriceResp)
    (h : resp.coins = []) :
    get_tokens_curr_prices token_addrs_n_chains resp =
      Except.error "ValueError: Length mismatch" := by
  unfold get_tokens_curr_prices _tidy_frame_price
  rw [h]
  rfl

/-- C2 (witness): the empty mapping with the empty-coins response raises. -/
theorem c2_witness :
    (PriceResp.mk []).coins = [] ∧
    get_tokens_curr_prices [] ⟨[]⟩ = Except.error "ValueError: Length mismatch" :=
  ⟨rfl, c2_theorem [] ⟨[]⟩ rfl⟩

/-! ### Claim C3 -/

/-- C3: whenever the protocol response's `currentChainTvls`, after removal of
the 'staking' entry, still has at least one chain (witnessed by an entry `kv`
whose key is not 'staking'), `get_protocol_hist_tvl_by_chain` hits the
undefined attribute `_tidy_frame` (the class only defines `_tidy_frame_tvl`)
and raises AttributeError instead of returning the dict of frames. -/
theorem c3_theorem (resp : ProtocolResp) (kv : String × Int)
    (hmem : kv ∈ resp.currentChainTvls) (hns : kv.1 ≠ "staking") :
    get_protocol_hist_tvl_by_chain resp = Except.error "AttributeError: _tidy_frame" := by
  have hd1 : kv ∈ (if resp.currentChainTvls.any (fun kv => kv.1 == "staking") then
      resp.currentChainTvls.eraseP (fun kv => kv.1 == "staking")
    else resp.currentChainTvls) := by
    split
    · exact mem_eraseP_of_neg hmem (by simp [hns])
    · exact hmem
  have hkey := List.mem_map_of_mem Prod.fst hd1
  have hne := List.ne_nil_of_mem hkey
  obtain ⟨c, cs, hcc⟩ := List.exists_cons_of_ne_nil hne
  show mapE _ ((if resp.currentChainTvls.any (fun kv => kv.1 == "staking") then
      resp.currentChainTvls.eraseP (fun kv => kv.1 == "staking")
    else resp.currentChainTvls).map Prod.fst) = Except.error "AttributeError: _tidy_frame"
  rw [hcc]
  exact mapE_error_head rfl

/-- C3 (witness): a protocol with the single chain "Ethereum" raises
AttributeError. -/
theorem c3_witness :
    (("Ethereum", (5 : Int)) ∈ [("Ethereum", (5 : Int))] ∧ "Ethereum" ≠ "staking") ∧
    get_protocol_hist_tvl_by_chain ⟨[("Ethereum", 5)], [("Ethereum", [⟨0, 1⟩])]⟩ =
      Except.error "AttributeError: _tidy_frame" :=
  ⟨⟨by decide, by decide⟩,
    c3_theorem ⟨[("Ethereum", 5)], [("Ethereum", [⟨0, 1⟩])]⟩ ("Ethereum", 5)
      (by decide) (by decide)⟩

/-! ### Claim C5 -/

/-- C5 (counterexample): the claim says each key is split on the FIRST colon,
so "ethereum:0xABC:x" should yield chain "ethereum" and token_address
"0xABC:x".  It does not: Python `split(':')` splits on every colon, the key
frame then has three columns, and the two-name column assignment raises —
there is no row at all for such a key. -/
theorem c5_counterexample :
    ¬ ∃ rows, _tidy_frame_price ⟨[("ethereum:0xABC:x", ⟨6, "T", 1, 0, 9⟩)]⟩ = Except.ok rows ∧
      rows.map (fun r => (r.chain, r.token_address)) = [(some "ethereum", some "0xABC:x")] := by
  rintro ⟨rows, hr, -⟩
  rw [show _tidy_frame_price ⟨[("ethereum:0xABC:x", ⟨6, "T", 1, 0, 9⟩)]⟩ =
      Except.error "ValueError: Length mismatch" from by decide] at hr
  exact Except.noConfusion hr

/-- C5 (amended): when every key of the (nonempty) price response splits into
exactly two pieces at colons — i.e. contains exactly one colon — the reshape
succeeds and each output row's `chain` and `token_address` columns are the
piece before and the piece after that colon; a key whose address part
contains a further colon instead makes the reshape raise. -/
theorem c5_theorem (resp : PriceResp) (hne : resp.coins ≠ [])
    (h : ∀ kv ∈ resp.coins, (pySplit ':' kv.1).length = 2) :
    _tidy_frame_price resp = Except.ok (resp.coins.map (fun kv =>
      let parts := pySplit ':' kv.1
      ⟨parts[0]?, parts[1]?, kv.2.decimals, kv.2.symbol, kv.2.price,
        utcfromtimestamp kv.2.timestamp, kv.2.confidence⟩)) := by
  have hw : (resp.coins.map (fun kv => (pySplit ':' kv.1).length)).foldr max 0 = 2 := by
    apply foldr_max_all_two
    · simpa using hne
    · intro x hx
      obtain ⟨kv, hkv, rfl⟩ := List.mem_map.mp hx
      exact h kv hkv
  unfold _tidy_frame_price
  rw [if_pos hw]

/-- C5 (witness): the key "ethereum:0xABC" yields chain "ethereum" and
token_address "0xABC". -/
theorem c5_witness :
    ((PriceResp.mk [("ethereum:0xABC", ⟨6, "USDC", 1, 1625097600, 99⟩)]).coins ≠ [] ∧
      ∀ kv ∈ (PriceResp.mk [("ethereum:0xABC", ⟨6, "USDC", 1, 1625097600, 99⟩)]).coins,
        (pySplit ':' kv.1).length = 2) ∧
    _tidy_frame_price ⟨[("ethereum:0xABC", ⟨6, "USDC", 1, 1625097600, 99⟩)]⟩ =
      Except.ok [⟨some "ethereum", some "0xABC", 6, "USDC", 1, ⟨2021, 7, 1, 0, 0, 0⟩, 99⟩] :=
  ⟨⟨by decide, by decide⟩,
    (c5_theorem ⟨[("ethereum:0xABC", ⟨6, "USDC", 1, 1625097600, 99⟩)]⟩
      (by decide) (by decide)).trans (by decide)⟩

/-! ### Claim C7 -/

/-- C7: for a protocol response whose chain-breakdown mapping has pairwise
distinct keys and contains a 'staking' key, the reshape
`get_protocol_curr_tvl_by_chain` returns exactly the non-'staking' entries in
order (one row per remaining chain, values untouched) and its output never
contains a 'staking' row. -/
theorem c7_theorem (resp : ProtocolResp)
    (hnd : (resp.currentChainTvls.map Prod.fst).Nodup)
    (hs : "staking" ∈ resp.currentChainTvls.map Prod.fst) :
    get_protocol_curr_tvl_by_chain resp =
      resp.currentChainTvls.filter (fun kv => !(kv.1 == "staking")) ∧
    "staking" ∉ (get_protocol_curr_tvl_by_chain resp).map Prod.fst := by
  have hany : resp.currentChainTvls.any (fun kv => kv.1 == "staking") = true := by
    rw [List.any_eq_true]
    obtain ⟨kv, hkv, hk⟩ := List.mem_map.mp hs
    exact ⟨kv, hkv, by simp [hk]⟩
  have h1 : get_protocol_curr_tvl_by_chain resp =
      resp.currentChainTvls.filter (fun kv => !(kv.1 == "staking")) := by
    unfold get_protocol_curr_tvl_by_chain
    rw [if_pos hany]
    exact eraseP_key_eq_filter _ _ hnd
  refine ⟨h1, ?_⟩
  rw [h1]
  intro hmem
  obtain ⟨kv, hkv, hk⟩ := List.mem_map.mp hmem
  have hp := List.of_mem_filter hkv
  simp [hk] at hp

/-- C7 (witness): a breakdown with keys "staking", "Ethereum", "Polygon"
keeps exactly the two chain rows and no 'staking' row. -/
theorem c7_witness :
    ((([("staking", 9), ("Ethereum", 5), ("Polygon", 3)] : List (String × Int)).map
        Prod.fst).Nodup ∧
      "staking" ∈ (([("staking", 9), ("Ethereum", 5), ("Polygon", 3)] : List (String × Int)).map
        Prod.fst)) ∧
    (get_protocol_curr_tvl_by_chain ⟨[("staking", 9), ("Ethereum", 5), ("Polygon", 3)], []⟩ =
      ([("staking", 9), ("Ethereum", 5), ("Polygon", 3)] : List (String × Int)).filter
        (fun kv => !(kv.1 == "staking")) ∧
      "staking" ∉ (get_protocol_curr_tvl_by_chain
        ⟨[("staking", 9), ("Ethereum", 5), ("Polygon", 3)], []⟩).map Prod.fst) :=
  ⟨⟨by decide, by decide⟩,
    c7_theorem ⟨[("staking", 9), ("Ethereum", 5), ("Polygon", 3)], []⟩ (by decide) (by decide)⟩

/-! ### Claim C8 -/

/-- C8: when the `/protocols` response provides every requested column
(including 'forkedFrom'), `get_protocols_fundamentals` returns the columns in
exactly the fixed requested order with 'forkedFrom' renamed to 'forked_from',
and the renamed column still carries the response's 'forkedFrom' values. -/
theorem c8_theorem {α : Type} (df : List (String × List α))
    (h : ∀ c ∈ fundamentalsCols, (df.lookup c).isSome) :
    ∃ out, get_protocols_fundamentals df = Except.ok out ∧
      out.map Prod.fst = ["name", "symbol", "chain", "category", "chains",
        "tvl", "change_1d", "change_7d", "fdv", "mcap", "forked_from"] ∧
      out.lookup "forked_from" = df.lookup "forkedFrom" := by
  obtain ⟨v1, h1⟩ := Option.isSome_iff_exists.mp (h "name" (by decide))
  obtain ⟨v2, h2⟩ := Option.isSome_iff_exists.mp (h "symbol" (by decide))
  obtain ⟨v3, h3⟩ := Option.isSome_iff_exists.mp (h "chain" (by decide))
  obtain ⟨v4, h4⟩ := Option.isSome_iff_exists.mp (h "category" (by decide))
  obtain ⟨v5, h5⟩ := Option.isSome_iff_exists.mp (h "chains" (by decide))
  obtain ⟨v6, h6⟩ := Option.isSome_iff_exists.mp (h "tvl" (by decide))
  obtain ⟨v7, h7⟩ := Option.isSome_iff_exists.mp (h "change_1d" (by decide))
  obtain ⟨v8, h8⟩ := Option.isSome_iff_exists.mp (h "change_7d" (by decide))
  obtain ⟨v9, h9⟩ := Option.isSome_iff_exists.mp (h "fdv" (by decide))
  obtain ⟨v10, h10⟩ := Option.isSome_iff_exists.mp (h "mcap" (by decide))
  obtain ⟨v11, h11⟩ := Option.isSome_iff_exists.mp (h "forkedFrom" (by decide))
  have hloc : locCols df fundamentalsCols = Except.ok
      [("name", v1), ("symbol", v2), ("chain", v3), ("category", v4), ("chains", v5),
       ("tvl", v6), ("change_1d", v7), ("change_7d", v8), ("fdv", v9), ("mcap", v10),
       ("forkedFrom", v11)] := by
    unfold locCols fundamentalsCols
    simp [mapE, h1, h2, h3, h4, h5, h6, h7, h8, h9, h10, h11]
  refine ⟨[("name", v1), ("symbol", v2), ("chain", v3), ("category", v4), ("chains", v5),
    ("tvl", v6), ("change_1d", v7), ("change_7d", v8), ("fdv", v9), ("mcap", v10),
    ("forked_from", v11)], ?_, ?_, ?_⟩
  · unfold get_protocols_fundamentals
    rw [hloc]
    rfl
  · rfl
  · rw [h11]
    rfl

/-- C8 (witness): a concrete twelve-column response (eleven requested plus an
extra) is selected, ordered and renamed as required. -/
theorem c8_witness :
    (∀ c ∈ fundamentalsCols,
      ((([("url", ["u"]), ("name", ["Aave"]), ("symbol", ["AAVE"]), ("chain", ["Multi"]),
        ("category", ["Lending"]), ("chains", ["e"]), ("tvl", ["1"]), ("change_1d", ["2"]),
        ("change_7d", ["3"]), ("fdv", ["4"]), ("mcap", ["5"]), ("forkedFrom", ["x"])] :
        List (String × List String)).lookup c).isSome)) ∧
    ∃ out, get_protocols_fundamentals
        ([("url", ["u"]), ("name", ["Aave"]), ("symbol", ["AAVE"]), ("chain", ["Multi"]),
          ("category", ["Lending"]), ("chains", ["e"]), ("tvl", ["1"]), ("change_1d", ["2"]),
          ("change_7d", ["3"]), ("fdv", ["4"]), ("mcap", ["5"]), ("forkedFrom", ["x"])] :
          List (String × List String)) = Except.ok out ∧
      out.map Prod.fst = ["name", "symbol", "chain", "category", "chains",
        "tvl", "change_1d", "change_7d", "fdv", "mcap", "forked_from"] ∧
      out.lookup "forked_from" =
        ([("url", ["u"]), ("name", ["Aave"]), ("symbol", ["AAVE"]), ("chain", ["Multi"]),
          ("category", ["Lending"]), ("chains", ["e"]), ("tvl", ["1"]), ("change_1d", ["2"]),
          ("change_7d", ["3"]), ("fdv", ["4"]), ("mcap", ["5"]), ("forkedFrom", ["x"])] :
          List (String × List String)).lookup "forkedFrom" :=
  ⟨by decide,
    c8_theorem ([("url", ["u"]), ("name", ["Aave"]), ("symbol", ["AAVE"]), ("chain", ["Multi"]),
      ("category", ["Lending"]), ("chains", ["e"]), ("tvl", ["1"]), ("change_1d", ["2"]),
      ("change_7d", ["3"]), ("fdv", ["4"]), ("mcap", ["5"]), ("forkedFrom", ["x"])] :
      List (String × List String)) (by decide)⟩

/-! ### Claim C10 -/

/-- C10: for a Dune query result of N records, the extraction sorts the
normalized rows by their parsed date and then drops the last row: the output
has exactly N − 1 rows, its date index is non-decreasing, and the dropped row
is one carrying the maximum date of the input rows (the remaining rows plus
the dropped one are a permutation of the normalized input rows). -/
theorem c10_theorem (dune : DuneData) (out rows : List DuneRow)
    (hex : extract_frame_from_dune_data dune "day" = Except.ok out)
    (hrows : dune_rows dune "day" = Except.ok rows)
    (hne : dune.records ≠ []) :
    out.length = dune.records.length - 1 ∧
    List.Chain' (fun a b : DuneRow => a.1 ≤ b.1) out ∧
    ∃ dropped, dropped ∈ rows ∧ (∀ r ∈ rows, r.1 ≤ dropped.1) ∧
      (out ++ [dropped]).Perm rows := by
  have hex2 : extract_frame_from_dune_data dune "day" =
      Except.ok ((List.insertionSort (fun a b : DuneRow => a.1 ≤ b.1) rows).dropLast) := by
    unfold extract_frame_from_dune_data
    rw [hrows]
    rfl
  have hout : out = (List.insertionSort (fun a b : DuneRow => a.1 ≤ b.1) rows).dropLast :=
    Except.ok.inj (hex.symm.trans hex2)
  have hrlen : rows.length = dune.records.length := mapE_length hrows
  have hperm : (List.insertionSort (fun a b : DuneRow => a.1 ≤ b.1) rows).Perm rows :=
    List.perm_insertionSort _ rows
  have hsorted : List.Pairwise (fun a b : DuneRow => a.1 ≤ b.1)
      (List.insertionSort (fun a b : DuneRow => a.1 ≤ b.1) rows) :=
    List.sorted_insertionSort _ rows
  have hslen : (List.insertionSort (fun a b : DuneRow => a.1 ≤ b.1) rows).length = rows.length :=
    hperm.length_eq
  have hrne : rows ≠ [] := by
    intro hc
    apply hne
    apply List.eq_nil_of_length_eq_zero
    rw [← hrlen, hc]
    rfl
  have hsne : List.insertionSort (fun a b : DuneRow => a.1 ≤ b.1) rows ≠ [] := by
    intro hc
    apply hrne
    apply List.eq_nil_of_length_eq_zero
    rw [← hslen, hc]
    rfl
  have hsplit := List.dropLast_append_getLast hsne
  have hpw : List.Pairwise (fun a b : DuneRow => a.1 ≤ b.1)
      ((List.insertionSort (fun a b : DuneRow => a.1 ≤ b.1) rows).dropLast ++
        [(List.insertionSort (fun a b : DuneRow => a.1 ≤ b.1) rows).getLast hsne]) := by
    rw [hsplit]
    exact hsorted
  obtain ⟨hpw1, hpw2, hcross⟩ := List.pairwise_append.mp hpw
  refine ⟨?_, ?_, ?_⟩
  · rw [hout, List.length_dropLast, hslen, hrlen]
  · rw [hout]
    exact hpw1.chain'
  · refine ⟨(List.insertionSort (fun a b : DuneRow => a.1 ≤ b.1) rows).getLast hsne,
      ?_, ?_, ?_⟩
    · exact hperm.mem_iff.mp (List.getLast_mem hsne)
    · intro r hr
      have hrs : r ∈ List.insertionSort (fun a b : DuneRow => a.1 ≤ b.1) rows :=
        hperm.mem_iff.mpr hr
      rw [← hsplit] at hrs
      rcases List.mem_append.mp hrs with hin | hin
      · exact hcross r hin _ (List.mem_singleton_self _)
      · rw [List.mem_singleton.mp hin]
    · rw [hout, hsplit]
      exact hperm

/-- C10 (witness): a two-record result arriving out of order is sorted, the
later day 2021-07-02 (epoch day 18810) is dropped, and the single remaining
row carries 2021-07-01 (epoch day 18809). -/
theorem c10_witness :
    (extract_frame_from_dune_data
        ⟨[[("data.day", "2021-07-02T00:00:00+00:00"), ("data.tvl", "10")],
          [("data.day", "2021-07-01T00:00:00+00:00"), ("data.tvl", "20")]]⟩ "day" =
      Except.ok [(18809, [("tvl", "20")])] ∧
      dune_rows
        ⟨[[("data.day", "2021-07-02T00:00:00+00:00"), ("data.tvl", "10")],
          [("data.day", "2021-07-01T00:00:00+00:00"), ("data.tvl", "20")]]⟩ "day" =
      Except.ok [(18810, [("tvl", "10")]), (18809, [("tvl", "20")])] ∧
      (⟨[[("data.day", "2021-07-02T00:00:00+00:00"), ("data.tvl", "10")],
          [("data.day", "2021-07-01T00:00:00+00:00"), ("data.tvl", "20")]]⟩ :
        DuneData).records ≠ []) ∧
    ([(18809, [("tvl", "20")])] : List DuneRow).length =
      (⟨[[("data.day", "2021-07-02T00:00:00+00:00"), ("data.tvl", "10")],
          [("data.day", "2021-07-01T00:00:00+00:00"), ("data.tvl", "20")]]⟩ :
        DuneData).records.length - 1 ∧
    List.Chain' (fun a b : DuneRow => a.1 ≤ b.1) [(18809, [("tvl", "20")])] ∧
    ∃ dropped, dropped ∈ ([(18810, [("tvl", "10")]), (18809, [("tvl", "20")])] : List DuneRow) ∧
      (∀ r ∈ ([(18810, [("tvl", "10")]), (18809, [("tvl", "20")])] : List DuneRow),
        r.1 ≤ dropped.1) ∧
      (([(18809, [("tvl", "20")])] : List DuneRow) ++ [dropped]).Perm
        [(18810, [("tvl", "10")]), (18809, [("tvl", "20")])] :=
  ⟨⟨by decide, by decide, by decide⟩,
    c10_theorem
      ⟨[[("data.day", "2021-07-02T00:00:00+00:00"), ("data.tvl", "10")],
        [("data.day", "2021-07-01T00:00:00+00:00"), ("data.tvl", "20")]]⟩
      [(18809, [("tvl", "20")])]
      [(18810, [("tvl", "10")]), (18809, [("tvl", "20")])]
      (by decide) (by decide) (by decide)⟩

end Mixture
